import Mathlib

/-!
Shallow embedding of the time tracker (src/time_tracker.py): the entry data
model, duration derivation, minor-time redistribution, context aggregation,
the entry builder, the record serialization, and the top-level error policy.
Minutes are integers; the stretch factor and adjusted values are rationals
(the source uses Python floats; the algebraic identities proved here are
exact over the rationals).
-/

/-- One row of the per-day log, mirroring the dataclass CsvEntry. -/
structure CsvEntry where
  description : String
  start_time : String
  context : String
  is_finish : Bool
  is_minor : Bool
deriving DecidableEq, Repr

/-- Value of one decimal digit character, none for a non-digit. -/
def digitVal (c : Char) : Option Nat :=
  if c.isDigit then some (c.toNat - 48) else none

/-- Reads one or two leading decimal digits, greedily, returning the value
and the remaining characters; none when the first character is not a digit.
This models how strptime consumes a two-digit field such as %H or %M. -/
def takeDigits2 : List Char → Option (Nat × List Char)
  | [] => none
  | c1 :: rest =>
    match digitVal c1 with
    | none => none
    | some d1 =>
      match rest with
      | [] => some (d1, [])
      | c2 :: rest2 =>
        match digitVal c2 with
        | some d2 => some (10 * d1 + d2, rest2)
        | none => some (d1, rest)

/-- Model of datetime.strptime(t, h-colon-m format): one or two digit hour
at most 23, a colon, one or two digit minute at most 59, end of string.
Returns the hour and minute, or none on a malformed string. -/
def parseHM (s : String) : Option (Nat × Nat) :=
  match takeDigits2 s.toList with
  | none => none
  | some (h, r1) =>
    match r1 with
    | ':' :: r2 =>
      match takeDigits2 r2 with
      | none => none
      | some (m, r3) =>
        if h ≤ 23 ∧ m ≤ 59 ∧ r3 = [] then some (h, m) else none
    | _ => none

/-- Mirrors time_to_minutes in print_summary: parse the start time and
convert to minutes since midnight (parsed.minute + 60 * parsed.hour). -/
def time_to_minutes (t : String) : Option Nat :=
  (parseHM t).map fun p => p.2 + 60 * p.1

/-- All start times of the entries converted to minutes since midnight;
none when any start time is malformed (strptime raises on the first bad
row, failing the whole summary). -/
def timeMinutesOf : List CsvEntry → Option (List Nat)
  | [] => some []
  | e :: rest =>
    match time_to_minutes e.start_time, timeMinutesOf rest with
    | some m, some ms => some (m :: ms)
    | _, _ => none

/-- Mirrors the duration derivation of print_summary: the boundary list is
the start times followed by now, and each duration is the difference of
consecutive boundaries (zip of the list without its last element against
the list without its first). Results are integers and may be negative. -/
def durations (starts : List Nat) (now : Nat) : List Int :=
  let time_minutes := starts ++ [now]
  (time_minutes.dropLast.zip time_minutes.tail).map
    fun p => (p.2 : Int) - (p.1 : Int)

/-- Mirrors total_time in print_summary: sum of durations over entries that
are not finish entries (minor entries included), over the zipped list of
durations and entries. -/
def total_time (l : List (Int × CsvEntry)) : Int :=
  (l.map fun p => if !p.2.is_finish then p.1 else 0).sum

/-- Mirrors major_time in print_summary: sum of durations over entries that
are neither finish nor minor. -/
def major_time (l : List (Int × CsvEntry)) : Int :=
  (l.map fun p => if !p.2.is_finish && !p.2.is_minor then p.1 else 0).sum

/-- Mirrors stretch_factor = float(total_time) / major_time, as an exact
rational (the division-by-zero case is handled in print_summary). -/
def stretch_factor (l : List (Int × CsvEntry)) : ℚ :=
  (total_time l : ℚ) / (major_time l : ℚ)

/-- One redistributed record per major entry, mirroring the MajorEntry
dataclass in print_summary. -/
structure MajorEntry where
  description : String
  original_minutes : Int
  minutes : ℚ
  hours : ℚ
  context : String
deriving DecidableEq, Repr

/-- Mirrors the major_entries comprehension: one MajorEntry per zipped
(duration, entry) pair whose entry is neither minor nor finish, with
minutes and hours inflated by the stretch factor of the whole list. -/
def major_entries (l : List (Int × CsvEntry)) : List MajorEntry :=
  (l.filter fun p => !p.2.is_minor && !p.2.is_finish).map
    fun p => ⟨p.2.description, p.1, (p.1 : ℚ) * stretch_factor l,
      (p.1 : ℚ) * stretch_factor l / 60, p.2.context⟩

/-- One aggregation row per distinct context, mirroring the ContextEntry
dataclass in print_summary. -/
structure ContextEntry where
  context : String
  original_minutes : Int
  minutes : ℚ
  hours : ℚ
  tasks : List String
deriving DecidableEq, Repr

/-- Mirrors the contextEntries comprehension: group the major records by
context and sum original minutes, adjusted minutes and adjusted hours per
group; tasks is the deduplicated list of descriptions in the group. The
source iterates a Python set of contexts in unspecified order; this model
uses first-occurrence order. -/
def contextEntriesOf (ms : List MajorEntry) : List ContextEntry :=
  ((ms.map fun e => e.context).dedup).map fun c =>
    ⟨c,
     ((ms.filter fun e => e.context = c).map fun e => e.original_minutes).sum,
     ((ms.filter fun e => e.context = c).map fun e => e.minutes).sum,
     ((ms.filter fun e => e.context = c).map fun e => e.hours).sum,
     ((ms.filter fun e => e.context = c).map fun e => e.description).dedup⟩

/-- Errors of the tracker: a malformed explicit time string (FormatError),
a malformed persisted row or start time (ParseError), redistribution with
zero major minutes (NoMajorWorkError, realized in the source as the
division by zero at the stretch factor), and I/O failure. -/
inductive TrackerError where
  | formatError
  | parseError
  | noMajorWorkError
  | ioError
deriving DecidableEq, Repr

/-- Mirrors the computational core of print_summary: parse the start times,
derive durations against now (minutes since midnight), and unless the major
minutes are zero, in which case the division by zero fails the operation,
produce the major records, the context aggregation and the grand total of
adjusted hours. -/
def print_summary (entries : List CsvEntry) (now : Nat) :
    Except TrackerError (List MajorEntry × List ContextEntry × ℚ) :=
  match timeMinutesOf entries with
  | none => Except.error TrackerError.parseError
  | some starts =>
    let zipped := (durations starts now).zip entries
    if major_time zipped = 0 then Except.error TrackerError.noMajorWorkError
    else
      let majors := major_entries zipped
      Except.ok (majors, contextEntriesOf majors,
        (majors.map fun e => e.hours).sum)

/-- Comparison of entries by start time, the sort key of the source
(entries.sort with key e.start_time, a string compare). -/
def startLE (a b : CsvEntry) : Prop :=
  a.start_time ≤ b.start_time

instance : DecidableRel startLE :=
  fun a b => inferInstanceAs (Decidable (a.start_time ≤ b.start_time))

instance : IsTotal CsvEntry startLE :=
  ⟨fun a b => le_total a.start_time b.start_time⟩

instance : IsTrans CsvEntry startLE :=
  ⟨fun _ _ _ h1 h2 => le_trans h1 h2⟩

/-- Mirrors entries.sort(key = e.start_time): a stable ascending sort by
start time (Python list sort is stable; insertion sort is a stable sort). -/
def sortByStart (l : List CsvEntry) : List CsvEntry :=
  l.insertionSort startLE

/-- Write request for the write mode: description, optional explicit time
string, optional context, stop flag, minor flag. -/
structure WriteArgs where
  description : String
  time : Option String
  context : Option String
  stop : Bool
  minor : Bool
deriving DecidableEq, Repr

/-- Zero-padded two-digit rendering of a field value, as strftime does. -/
def pad2 (n : Nat) : String :=
  if n < 10 then ("0") ++ toString n else toString n

/-- Mirrors timestamp.strftime of the hour-colon-minute format. -/
def formatHM (h m : Nat) : String :=
  pad2 h ++ ":" ++ pad2 m

/-- The single entry appended by add_entry, given the resolved time string:
context defaults to the description; a stop request yields an empty
description with is_finish true, otherwise the given description with
is_finish false; is_minor is stamped as given in both cases. -/
def builtEntry (args : WriteArgs) (timestr : String) : CsvEntry :=
  let context := match args.context with
    | some c => c
    | none => args.description
  if !args.stop then
    ⟨args.description, timestr, context, false, args.minor⟩
  else
    ⟨"", timestr, context, true, args.minor⟩

/-- Mirrors add_entry: resolve the timestamp (the explicit time parsed and
reformatted when given, else the current wall clock, passed here already
formatted), append the built entry and re-sort the whole list by start
time. A malformed explicit time fails with FormatError. -/
def add_entry (entries : List CsvEntry) (args : WriteArgs) (nowStr : String) :
    Except TrackerError (List CsvEntry) :=
  match args.time with
  | some t =>
    match parseHM t with
    | none => Except.error TrackerError.formatError
    | some hm =>
      Except.ok (sortByStart (entries ++ [builtEntry args (formatHM hm.1 hm.2)]))
  | none => Except.ok (sortByStart (entries ++ [builtEntry args nowStr]))

/-- Python str of a bool: the literal text True or False. -/
def boolStr (b : Bool) : String :=
  if b then ("True") else ("False")

/-- One serialized row of the persisted file, in the fixed field order of
CsvFields: description, start_time, context, is_finish, is_minor, with the
booleans rendered by boolStr (asdict passed through the csv DictWriter). -/
def entryToRow (e : CsvEntry) : List String :=
  [e.description, e.start_time, e.context, boolStr e.is_finish, boolStr e.is_minor]

/-- Mirrors CsvEntry(**d) on a row read back: the three text fields are
taken as-is and each boolean field is the comparison of its text with the
literal True, as in the dataclass post-init hook. A row of the wrong arity
fails the load. -/
def rowToEntry (r : List String) : Option CsvEntry :=
  match r with
  | [d, s, c, f, m] => some ⟨d, s, c, f == "True", m == "True"⟩
  | _ => none

/-- Mirrors write_entries at the record level: the header row followed by
one serialized row per entry, in list order. -/
def write_entries (entries : List CsvEntry) : List (List String) :=
  entryToRow_header :: entries.map entryToRow
where entryToRow_header : List String :=
  ["description", "start_time", "context", "is_finish", "is_minor"]

/-- Rebuilds one entry per row; any malformed row fails the whole load. -/
def rowsToEntries : List (List String) → Option (List CsvEntry)
  | [] => some []
  | r :: rest =>
    match rowToEntry r, rowsToEntries rest with
    | some e, some es => some (e :: es)
    | _, _ => none

/-- Mirrors read_entries at the record level: skip the header row and
rebuild one entry per remaining row; any malformed row fails the whole
load. -/
def read_entries (rows : List (List String)) : Option (List CsvEntry) :=
  rowsToEntries (rows.drop 1)

/-- Observable outcome of the top-level handler: whether the error text and
the diagnostic traceback were printed, and the process exit status. -/
structure TopOutcome where
  errorPrinted : Bool
  tracePrinted : Bool
  exitCode : Nat
deriving DecidableEq, Repr

/-- Mirrors the top-level try-except of the script: a successful run just
ends (status 0); any raised error is caught once (never retried), its text
is printed, the traceback is printed, and the handler falls through, so the
interpreter also ends with status 0. -/
def topLevel (r : Except TrackerError Unit) : TopOutcome :=
  match r with
  | Except.ok _ => ⟨false, false, 0⟩
  | Except.error _ => ⟨true, true, 0⟩

/-! Concrete inputs used by witnesses and counterexamples. -/

/-- Scenario A of the spec: two major entries around one minor entry, all
in one context. -/
def scenarioA : List CsvEntry :=
  [⟨"Write code", "09:00", "Project", false, false⟩,
   ⟨"Email", "09:30", "Project", false, true⟩,
   ⟨"Write code", "09:45", "Project", false, false⟩]

/-- A stop write request carrying a description and no explicit context. -/
def stopArgs : WriteArgs :=
  ⟨"Email", none, none, true, false⟩

/-- A day with one major entry followed by one minor entry whose start time
lies after now, so that the minor duration is negative. -/
def lateMinorDay : List CsvEntry :=
  [⟨"Write code", "09:00", "Project", false, false⟩,
   ⟨"Email", "10:00", "Email", false, true⟩]

/-- A day holding only a minor entry and a finish entry. -/
def minorFinishDay : List CsvEntry :=
  [⟨"Email", "09:00", "Email", false, true⟩,
   ⟨"", "09:30", "", true, false⟩]

/-! Helper lemmas. -/

/-- The sum of the unadjusted durations of the filtered major pairs is
exactly the major time. -/
lemma filter_sum_eq_major_time (l : List (Int × CsvEntry)) :
    ((l.filter fun p => !p.2.is_minor && !p.2.is_finish).map fun p => p.1).sum
      = major_time l := by
  induction l with
  | nil => simp [major_time]
  | cons p t ih =>
    rw [List.filter_cons,
      show major_time (p :: t)
        = (if !p.2.is_finish && !p.2.is_minor then p.1 else 0) + major_time t
        from rfl]
    cases hf : p.2.is_finish <;> cases hm : p.2.is_minor <;> simp [hf, hm, ih]

/-- The rational sum of the unadjusted durations of the filtered major
pairs is the cast of the major time. -/
lemma cast_filter_sum_eq_major_time (l : List (Int × CsvEntry)) :
    ((l.filter fun p => !p.2.is_minor && !p.2.is_finish).map
      fun p => (p.1 : ℚ)).sum = (major_time l : ℚ) := by
  induction l with
  | nil => simp [major_time]
  | cons p t ih =>
    rw [List.filter_cons,
      show major_time (p :: t)
        = (if !p.2.is_finish && !p.2.is_minor then p.1 else 0) + major_time t
        from rfl]
    cases hf : p.2.is_finish <;> cases hm : p.2.is_minor <;> simp [hf, hm, ih]

/-- A sum of rationals each divided by a constant is the sum divided by
the constant. -/
lemma sum_map_div_const {α : Type} (l : List α) (f : α → ℚ) (c : ℚ) :
    (l.map fun x => f x / c).sum = (l.map f).sum / c := by
  induction l with
  | nil => simp
  | cons a t ih => simp [ih, add_div]

/-- With nonzero major time, the adjusted minutes of the major records sum
to the total time. -/
lemma major_entries_minutes_sum (l : List (Int × CsvEntry))
    (h : major_time l ≠ 0) :
    ((major_entries l).map fun e => e.minutes).sum = (total_time l : ℚ) := by
  unfold major_entries
  rw [List.map_map]
  have hcomp :
      ((fun e : MajorEntry => e.minutes) ∘ fun p : Int × CsvEntry =>
        (⟨p.2.description, p.1, (p.1 : ℚ) * stretch_factor l,
          (p.1 : ℚ) * stretch_factor l / 60, p.2.context⟩ : MajorEntry))
        = fun p : Int × CsvEntry => (p.1 : ℚ) * stretch_factor l := rfl
  rw [hcomp, List.sum_map_mul_right, cast_filter_sum_eq_major_time]
  have hm : (major_time l : ℚ) ≠ 0 := Int.cast_ne_zero.mpr h
  rw [stretch_factor, mul_div_assoc']
  rw [mul_comm, mul_div_assoc, div_self hm, mul_one]

/-- With nonzero major time, the adjusted hours of the major records sum
to the total time divided by sixty. -/
lemma major_entries_hours_sum (l : List (Int × CsvEntry))
    (h : major_time l ≠ 0) :
    ((major_entries l).map fun e => e.hours).sum = (total_time l : ℚ) / 60 := by
  have hsplit :
      ((major_entries l).map fun e => e.hours)
        = ((major_entries l).map fun e => e.minutes / 60) := by
    unfold major_entries
    rw [List.map_map, List.map_map]
    rfl
  rw [hsplit, sum_map_div_const, major_entries_minutes_sum l h]

/-! Claim theorems. -/

/-- C1: for every entry list with positive major minutes, the adjusted
minutes of the major records sum to the total minutes, and the grand total
of adjusted hours over all major records equals the total minutes divided
by sixty. -/
theorem redistribution_conservation (entries : List CsvEntry) (now : Nat)
    (starts : List Nat) (hp : timeMinutesOf entries = some starts)
    (hmaj : 0 < major_time ((durations starts now).zip entries)) :
    ∃ majors ctxs grand,
      print_summary entries now = Except.ok (majors, ctxs, grand) ∧
      (majors.map fun e => e.minutes).sum
        = (total_time ((durations starts now).zip entries) : ℚ) ∧
      grand = (majors.map fun e => e.hours).sum ∧
      grand = (total_time ((durations starts now).zip entries) : ℚ) / 60 := by
  have hne : major_time ((durations starts now).zip entries) ≠ 0 := ne_of_gt hmaj
  refine ⟨major_entries ((durations starts now).zip entries),
    contextEntriesOf (major_entries ((durations starts now).zip entries)),
    ((major_entries ((durations starts now).zip entries)).map fun e => e.hours).sum,
    ?_, ?_, rfl, ?_⟩
  · unfold print_summary
    rw [hp]
    simp only [if_neg hne]
  · exact major_entries_minutes_sum _ hne
  · exact major_entries_hours_sum _ hne

/-- C1 witness: Scenario A of the spec, with now at ten in the morning. -/
theorem redistribution_conservation_witness :
    ∃ majors ctxs grand,
      print_summary scenarioA 600 = Except.ok (majors, ctxs, grand) ∧
      (majors.map fun e => e.minutes).sum
        = (total_time ((durations [540, 570, 585] 600).zip scenarioA) : ℚ) ∧
      grand = (majors.map fun e => e.hours).sum ∧
      grand = (total_time ((durations [540, 570, 585] 600).zip scenarioA) : ℚ) / 60 :=
  redistribution_conservation scenarioA 600 [540, 570, 585] (by rfl) (by decide)

/-- C2: for every entry list whose major minutes are zero, including the
empty list, the summary fails with the no-major-work error rather than
producing a value. -/
theorem zero_major_error (entries : List CsvEntry) (now : Nat)
    (starts : List Nat) (hp : timeMinutesOf entries = some starts)
    (hz : major_time ((durations starts now).zip entries) = 0) :
    print_summary entries now = Except.error TrackerError.noMajorWorkError := by
  unfold print_summary
  rw [hp]
  simp only [if_pos hz]

/-- C2 witness: a day holding only a minor entry and a finish entry. -/
theorem zero_major_error_witness :
    print_summary minorFinishDay 600 = Except.error TrackerError.noMajorWorkError :=
  zero_major_error minorFinishDay 600 [540, 570] (by rfl) (by decide)

/-- A successful start-time conversion yields one minute value per entry. -/
lemma timeMinutesOf_length :
    ∀ (es : List CsvEntry) (r : List Nat), timeMinutesOf es = some r →
      r.length = es.length := by
  intro es
  induction es with
  | nil => intro r h; simp [timeMinutesOf] at h; simp [← h]
  | cons e t ih =>
    intro r h
    unfold timeMinutesOf at h
    cases h1 : time_to_minutes e.start_time with
    | none => rw [h1] at h; exact absurd h (by simp)
    | some m =>
      cases h2 : timeMinutesOf t with
      | none => rw [h1, h2] at h; exact absurd h (by simp)
      | some ms =>
        rw [h1, h2] at h
        cases h
        simp [ih ms h2]

/-- The deriver yields exactly one duration per start time. -/
lemma durations_length (starts : List Nat) (now : Nat) :
    (durations starts now).length = starts.length := by
  simp [durations]

/-- Successive-difference values of the boundary list, position by
position. -/
lemma zip_diff_getD :
    ∀ (b : List Nat) (i : Nat), i + 1 < b.length →
      ((b.dropLast.zip b.tail).map fun p => (p.2 : Int) - (p.1 : Int)).getD i 0
        = ((b.getD (i + 1) 0 : Nat) : Int) - ((b.getD i 0 : Nat) : Int) := by
  intro b
  induction b with
  | nil => intro i h; exact absurd h (by simp)
  | cons x rest ih =>
    intro i h
    cases rest with
    | nil => simp at h
    | cons y t =>
      have hstep :
          ((x :: y :: t).dropLast.zip (x :: y :: t).tail)
            = (x, y) :: ((y :: t).dropLast.zip (y :: t).tail) := by
        simp [List.dropLast]
      rw [hstep]
      cases i with
      | zero => simp
      | succ j =>
        have hj : j + 1 < (y :: t).length := by
          simpa [List.length] using h
        simpa using ih j hj

/-- C3: for every entry list whose start times parse, the deriver yields
exactly one duration per entry, each duration is the difference of
consecutive boundaries where the boundary list is the start minutes
followed by now, and no clamping is applied, so a start list that is not
ascending relative to now can yield a negative duration. -/
theorem duration_derivation (entries : List CsvEntry) (now : Nat)
    (starts : List Nat) (hp : timeMinutesOf entries = some starts) :
    (durations starts now).length = entries.length ∧
    (∀ i, i < entries.length →
      (durations starts now).getD i 0
        = (((starts ++ [now]).getD (i + 1) 0 : Nat) : Int)
          - (((starts ++ [now]).getD i 0 : Nat) : Int)) ∧
    (∃ badStarts badNow j, j < (durations badStarts badNow).length ∧
      (durations badStarts badNow).getD j 0 < 0) := by
  have hlen : starts.length = entries.length := timeMinutesOf_length entries starts hp
  refine ⟨by rw [durations_length, hlen], ?_, ⟨[600, 540], 570, 0, by decide, by decide⟩⟩
  intro i hi
  have hb : i + 1 < (starts ++ [now]).length := by
    simp only [List.length_append, List.length_singleton]
    omega
  simpa [durations] using zip_diff_getD (starts ++ [now]) i hb

/-- C3 witness: Scenario A, the second duration is the difference of the
third and second boundaries. -/
theorem duration_derivation_witness :
    (durations [540, 570, 585] 600).getD 1 0
      = ((([540, 570, 585] ++ [600]).getD 2 0 : Nat) : Int)
        - ((([540, 570, 585] ++ [600]).getD 1 0 : Nat) : Int) :=
  (duration_derivation scenarioA 600 [540, 570, 585] (by rfl)).2.1 1 (by decide)

/-- C4 counterexample: with a minor entry whose start time lies after now,
the minor duration is negative, the major minutes stay positive, and the
stretch factor computed by the code is one half, strictly below one. -/
theorem stretch_factor_counterexample :
    timeMinutesOf lateMinorDay = some [540, 600] ∧
    0 < major_time ((durations [540, 600] 570).zip lateMinorDay) ∧
    stretch_factor ((durations [540, 600] 570).zip lateMinorDay) < 1 := by
  refine ⟨by rfl, by decide, ?_⟩
  have h1 : total_time ((durations [540, 600] 570).zip lateMinorDay) = 30 := by decide
  have h2 : major_time ((durations [540, 600] 570).zip lateMinorDay) = 60 := by decide
  rw [stretch_factor, h1, h2]
  norm_num

/-- C4 amended: for every zipped duration-entry list whose major minutes
are positive and whose durations are all nonnegative (as holds for entries
sorted ascending with now at or after the last start), the stretch factor
is at least one, and it is exactly one when no entry is minor. -/
theorem stretch_factor_bound (l : List (Int × CsvEntry))
    (hmaj : 0 < major_time l) (hnn : ∀ p ∈ l, (0 : Int) ≤ p.1) :
    1 ≤ stretch_factor l ∧
      ((∀ p ∈ l, p.2.is_minor = false) → stretch_factor l = 1) := by
  have hle : major_time l ≤ total_time l := by
    unfold major_time total_time
    refine List.sum_le_sum ?_
    intro p hp
    have hd := hnn p hp
    cases hf : p.2.is_finish <;> cases hm : p.2.is_minor <;> simp [hf, hm, hd]
  constructor
  · rw [stretch_factor]
    rw [one_le_div (by exact_mod_cast hmaj)]
    exact_mod_cast hle
  · intro hnom
    have heq : total_time l = major_time l := by
      unfold major_time total_time
      refine congrArg List.sum (List.map_congr_left ?_)
      intro p hp
      rw [hnom p hp]
      cases hf : p.2.is_finish <;> simp [hf]
    rw [stretch_factor, heq]
    exact div_self (by exact_mod_cast ne_of_gt hmaj)

/-- C4 witness for the amended claim: Scenario A has positive major
minutes and nonnegative durations, so its stretch factor is at least
one. -/
theorem stretch_factor_bound_witness :
    1 ≤ stretch_factor ((durations [540, 570, 585] 600).zip scenarioA) :=
  (stretch_factor_bound ((durations [540, 570, 585] 600).zip scenarioA)
    (by decide) (by decide)).1

/-- C5: for every write request, a stop request builds an entry with empty
description and the finish flag set, discarding the description argument;
a non-stop request builds an entry carrying the given description with the
finish flag clear; the minor flag is stamped as given in both cases. -/
theorem entry_builder_stop_semantics (args : WriteArgs) (timestr : String) :
    (args.stop = true →
      (builtEntry args timestr).description = "" ∧
      (builtEntry args timestr).is_finish = true) ∧
    (args.stop = false →
      (builtEntry args timestr).description = args.description ∧
      (builtEntry args timestr).is_finish = false) ∧
    (builtEntry args timestr).is_minor = args.minor := by
  cases hs : args.stop <;> simp [builtEntry, hs]

/-- C5 witness: a concrete stop request with a discarded description. -/
theorem entry_builder_stop_semantics_witness :
    (builtEntry stopArgs ("09:30")).description = "" ∧
    (builtEntry stopArgs ("09:30")).is_finish = true :=
  (entry_builder_stop_semantics stopArgs ("09:30")).1 (by rfl)

/-- C10: for every stop request without an explicit context, the built
finish entry takes the discarded description argument as its context while
its own description field is empty, so a finish entry can carry a
non-empty context. -/
theorem stop_context_defaults_to_description (args : WriteArgs)
    (timestr : String) (hs : args.stop = true) (hc : args.context = none) :
    (builtEntry args timestr).context = args.description ∧
    (builtEntry args timestr).description = "" := by
  simp [builtEntry, hs, hc]

/-- C10 witness: a stop request whose description is the word Email yields
a finish entry with empty description and the non-empty context Email. -/
theorem stop_context_defaults_to_description_witness :
    (builtEntry stopArgs ("09:30")).context = "Email" ∧
    (builtEntry stopArgs ("09:30")).description = "" :=
  stop_context_defaults_to_description stopArgs ("09:30") (by rfl) (by rfl)

/-- Each serialized row deserializes back to the entry it came from. -/
lemma rowToEntry_entryToRow (e : CsvEntry) :
    rowToEntry (entryToRow e) = some e := by
  cases e with
  | mk d s c f m =>
    cases f <;> cases m <;> simp [entryToRow, rowToEntry, boolStr]

/-- C7: loading a just-persisted entry list yields the identical entry
sequence, and the boolean fields serialize as the literal text True or
False and recover the same boolean value through that text on reload. -/
theorem persist_load_round_trip (entries : List CsvEntry) :
    read_entries (write_entries entries) = some entries ∧
    boolStr true = "True" ∧ boolStr false = "False" ∧
    (∀ b : Bool, ((boolStr b) == "True") = b) := by
  refine ⟨?_, rfl, rfl, fun b => by cases b <;> rfl⟩
  unfold read_entries write_entries
  simp only [List.drop_succ_cons, List.drop_zero]
  induction entries with
  | nil => rfl
  | cons e t ih => simp [rowsToEntries, rowToEntry_entryToRow, ih]

/-- C9 counterexample: on an error reaching the top level, the exit status
is zero, contradicting the claimed non-zero termination. -/
theorem top_level_exit_zero_counterexample :
    ¬ (topLevel (Except.error TrackerError.noMajorWorkError)).exitCode ≠ 0 := by
  simp [topLevel]

/-- C9 amended: every error propagates un-retried to the top level, which
prints the error text and the diagnostic traceback, after which the
process terminates normally with exit status zero. -/
theorem top_level_error_policy (e : TrackerError) :
    topLevel (Except.error e) = ⟨true, true, 0⟩ := rfl

/-- All entries sharing one start time are mutually comparable by the sort
key. -/
lemma filter_key_pairwise (l : List CsvEntry) (t : String) :
    (l.filter fun e => e.start_time == t).Pairwise startLE := by
  refine List.pairwise_of_forall_mem_list ?_
  intro a ha b hb
  have ha2 : a.start_time = t := by simpa using (List.mem_filter.mp ha).2
  have hb2 : b.start_time = t := by simpa using (List.mem_filter.mp hb).2
  unfold startLE
  rw [ha2, hb2]

/-- Entries sharing one start time keep their relative order through the
sort: filtering the sorted list at a key gives the filtered input. -/
lemma sortByStart_stable (l : List CsvEntry) (t : String) :
    (sortByStart l).filter (fun e => e.start_time == t)
      = l.filter (fun e => e.start_time == t) := by
  have hsub : List.Sublist (l.filter fun e => e.start_time == t) (sortByStart l) :=
    List.sublist_insertionSort (filter_key_pairwise l t) (List.filter_sublist l)
  have hsub2 := hsub.filter (fun e => e.start_time == t)
  have hfix : (l.filter fun e => e.start_time == t).filter
      (fun e => e.start_time == t) = l.filter fun e => e.start_time == t :=
    List.filter_eq_self.mpr (fun a ha => (List.mem_filter.mp ha).2)
  rw [hfix] at hsub2
  have hperm : List.Perm ((sortByStart l).filter fun e => e.start_time == t)
      (l.filter fun e => e.start_time == t) :=
    (List.perm_insertionSort startLE l).filter _
  exact (List.Sublist.eq_of_length hsub2 hperm.length_eq.symm).symm

/-- C6: the post-load sort and the Entry Builder insert both produce lists
that are non-decreasing by start time, and two entries with identical
start time keep their relative order through the re-sort. -/
theorem sort_invariant_and_stability (l : List CsvEntry) (t : String)
    (entries : List CsvEntry) (args : WriteArgs) (nowStr : String)
    (res : List CsvEntry)
    (hres : add_entry entries args nowStr = Except.ok res) :
    List.Sorted startLE (sortByStart l) ∧
    (sortByStart l).filter (fun e => e.start_time == t)
      = l.filter (fun e => e.start_time == t) ∧
    List.Sorted startLE res := by
  refine ⟨List.sorted_insertionSort startLE l, sortByStart_stable l t, ?_⟩
  cases harg : args.time with
  | none =>
    simp only [add_entry, harg, Except.ok.injEq] at hres
    rw [← hres]
    exact List.sorted_insertionSort startLE _
  | some ts =>
    simp only [add_entry, harg] at hres
    cases hpp : parseHM ts with
    | none => rw [hpp] at hres; exact absurd hres (by simp)
    | some hm2 =>
      rw [hpp] at hres
      simp only [Except.ok.injEq] at hres
      rw [← hres]
      exact List.sorted_insertionSort startLE _

/-- C6 witness: Scenario A sorted and filtered at its first start time,
and a concrete insert through the builder. -/
theorem sort_invariant_and_stability_witness :
    List.Sorted startLE (sortByStart scenarioA) ∧
    (sortByStart scenarioA).filter (fun e => e.start_time == "09:00")
      = scenarioA.filter (fun e => e.start_time == "09:00") ∧
    List.Sorted startLE (sortByStart ([] ++ [builtEntry stopArgs ("09:30")])) :=
  sort_invariant_and_stability scenarioA ("09:00") [] stopArgs ("09:30")
    (sortByStart ([] ++ [builtEntry stopArgs ("09:30")])) rfl

/-- Dropping a finish pair does not change the total time. -/
lemma total_time_erase_finish :
    ∀ (l : List (Int × CsvEntry)) (i : Nat) (h : i < l.length),
      (l.get ⟨i, h⟩).2.is_finish = true →
      total_time (l.eraseIdx i) = total_time l := by
  intro l
  induction l with
  | nil => intro i h; exact absurd h (by simp)
  | cons p t ih =>
    intro i h hf
    cases i with
    | zero =>
      have hp : p.2.is_finish = true := hf
      simp [List.eraseIdx, total_time, hp]
    | succ j =>
      have hj : j < t.length := by simpa using h
      rw [show (p :: t).eraseIdx (j + 1) = p :: t.eraseIdx j from rfl,
        show total_time (p :: t.eraseIdx j)
          = (if !p.2.is_finish then p.1 else 0) + total_time (t.eraseIdx j)
          from rfl,
        show total_time (p :: t)
          = (if !p.2.is_finish then p.1 else 0) + total_time t from rfl,
        ih j hj hf]

/-- Dropping a finish pair does not change the major time. -/
lemma major_time_erase_finish :
    ∀ (l : List (Int × CsvEntry)) (i : Nat) (h : i < l.length),
      (l.get ⟨i, h⟩).2.is_finish = true →
      major_time (l.eraseIdx i) = major_time l := by
  intro l
  induction l with
  | nil => intro i h; exact absurd h (by simp)
  | cons p t ih =>
    intro i h hf
    cases i with
    | zero =>
      have hp : p.2.is_finish = true := hf
      simp [List.eraseIdx, major_time, hp]
    | succ j =>
      have hj : j < t.length := by simpa using h
      rw [show (p :: t).eraseIdx (j + 1) = p :: t.eraseIdx j from rfl,
        show major_time (p :: t.eraseIdx j)
          = (if !p.2.is_finish && !p.2.is_minor then p.1 else 0)
            + major_time (t.eraseIdx j) from rfl,
        show major_time (p :: t)
          = (if !p.2.is_finish && !p.2.is_minor then p.1 else 0)
            + major_time t from rfl,
        ih j hj hf]

/-- Dropping a finish pair does not change the filtered major pairs. -/
lemma filter_erase_finish :
    ∀ (l : List (Int × CsvEntry)) (i : Nat) (h : i < l.length),
      (l.get ⟨i, h⟩).2.is_finish = true →
      (l.eraseIdx i).filter (fun p => !p.2.is_minor && !p.2.is_finish)
        = l.filter (fun p => !p.2.is_minor && !p.2.is_finish) := by
  intro l
  induction l with
  | nil => intro i h; exact absurd h (by simp)
  | cons p t ih =>
    intro i h hf
    cases i with
    | zero =>
      have hp : p.2.is_finish = true := hf
      simp [List.eraseIdx, List.filter_cons, hp]
    | succ j =>
      have hj : j < t.length := by simpa using h
      rw [show (p :: t).eraseIdx (j + 1) = p :: t.eraseIdx j from rfl,
        List.filter_cons, List.filter_cons, ih j hj hf]

/-- C8: a finish pair contributes nothing: removing it, whatever its
duration, changes neither the total minutes, the major minutes, the major
records, nor the context aggregation. -/
theorem finish_entries_contribute_nothing (l : List (Int × CsvEntry))
    (i : Nat) (h : i < l.length)
    (hf : (l.get ⟨i, h⟩).2.is_finish = true) :
    total_time (l.eraseIdx i) = total_time l ∧
    major_time (l.eraseIdx i) = major_time l ∧
    major_entries (l.eraseIdx i) = major_entries l ∧
    contextEntriesOf (major_entries (l.eraseIdx i))
      = contextEntriesOf (major_entries l) := by
  have h1 := total_time_erase_finish l i h hf
  have h2 := major_time_erase_finish l i h hf
  have h3 := filter_erase_finish l i h hf
  have hs : stretch_factor (l.eraseIdx i) = stretch_factor l := by
    rw [stretch_factor, stretch_factor, h1, h2]
  have h4 : major_entries (l.eraseIdx i) = major_entries l := by
    rw [major_entries, major_entries, h3, hs]
  exact ⟨h1, h2, h4, by rw [h4]⟩

/-- A day starting with a finish pair of large duration before one major
pair. -/
def finishFirstDay : List (Int × CsvEntry) :=
  [(90, ⟨"", "09:00", "", true, false⟩),
   (30, ⟨"Write code", "10:30", "Project", false, false⟩)]

/-- C8 witness: the finish pair with ninety elapsed minutes is dropped
without changing any total, record or aggregation. -/
theorem finish_entries_contribute_nothing_witness :
    total_time (finishFirstDay.eraseIdx 0) = total_time finishFirstDay ∧
    major_time (finishFirstDay.eraseIdx 0) = major_time finishFirstDay ∧
    major_entries (finishFirstDay.eraseIdx 0) = major_entries finishFirstDay ∧
    contextEntriesOf (major_entries (finishFirstDay.eraseIdx 0))
      = contextEntriesOf (major_entries finishFirstDay) :=
  finish_entries_contribute_nothing finishFirstDay 0 (by decide) (by rfl)
